import Mathlib

/-!
Shallow embedding of the planetary-hour calculators of
`kronos-planetary-rituals-wpa` and proofs about them.

Time is modelled as rational milliseconds since the Unix epoch.  Luxon's
`setZone` changes only the representation of an instant, never the instant
itself, so the `timezone` argument does not enter instant arithmetic; it is
kept as a fixed UTC-offset parameter (milliseconds east of UTC).  The host
zone in which JavaScript's `Date.getDay` is evaluated is modelled as UTC.
`plus` with a `minutes` field adds `minutes * 60000` milliseconds.
-/

namespace Kronos

/-- The seven classical planets, `PlanetDay` in `app/types/index.ts`. -/
inductive PlanetDay
  | sun
  | moon
  | mars
  | mercury
  | jupiter
  | venus
  | saturn
deriving DecidableEq, Repr, Inhabited

/-- The `period` field of a planetary hour: the string union of
`'day' | 'night'` in the source. -/
inductive Period
  | day
  | night
deriving DecidableEq, Repr, Inhabited

/-- The `PlanetaryHour` record of `app/types/index.ts` (the fields produced by
the calculators; the optional `isDayHour` compatibility field is the same
boolean as `isDay` and is not duplicated here). -/
structure PlanetaryHour where
  hour : ℕ
  hourNumber : ℕ
  planet : PlanetDay
  planetId : PlanetDay
  period : Period
  isDay : Bool
  startTime : ℚ
  endTime : ℚ
  isCurrentHour : Bool
deriving DecidableEq, Repr, Inhabited

/-- One minute in milliseconds. -/
def msPerMinute : ℚ := 60000

/-- One calendar day in milliseconds (the host zone is modelled as a fixed
offset, so `setDate(getDate() + 1)` advances the instant by exactly this). -/
def msPerDay : ℚ := 86400000

/-- JavaScript's `Date.prototype.getDay` (0 = Sunday .. 6 = Saturday) for an
epoch-millisecond instant, with the host zone modelled as UTC; the epoch
itself (1970-01-01) was a Thursday, day number 4. -/
def jsGetDay (t : ℚ) : Fin 7 :=
  ⟨((⌊t / msPerDay⌋ + 4) % 7).toNat, by
    have h1 : 0 ≤ (⌊t / msPerDay⌋ + 4) % 7 := Int.emod_nonneg _ (by norm_num)
    have h2 : (⌊t / msPerDay⌋ + 4) % 7 < 7 := Int.emod_lt_of_pos _ (by norm_num)
    omega⟩

/-- Modelled from the spec: `chaldeanOrder` from `app/constants/planets.ts`,
which is imported by `app/services/planetaryHours.ts` but absent from the
sources; the spec gives the canonical Chaldean sequence as
Saturn, Jupiter, Mars, Sun, Venus, Mercury, Moon, and the source's own
`PLANETARY_HOUR_SEQUENCE` lists the same order. -/
def chaldeanOrder : List PlanetDay :=
  [.saturn, .jupiter, .mars, .sun, .venus, .mercury, .moon]

/-- Modelled from the spec: `planetaryDayRulers` from
`app/constants/planets.ts` (also missing), the day-of-week ruler table
Sunday ↦ Sun .. Saturday ↦ Saturn; identical to the source's `DAY_RULERS`. -/
def planetaryDayRulers : List PlanetDay :=
  [.sun, .moon, .mars, .mercury, .jupiter, .venus, .saturn]

/-- `PLANETARY_HOUR_SEQUENCE` from the improved calculator's file (declared
there but unused by its hour loop). -/
def PLANETARY_HOUR_SEQUENCE : List PlanetDay :=
  [.saturn, .jupiter, .mars, .sun, .venus, .mercury, .moon]

/-- `DAY_RULERS` from the improved calculator's file. -/
def DAY_RULERS : List PlanetDay :=
  [.sun, .moon, .mars, .mercury, .jupiter, .venus, .saturn]

/-- `REFERENCE_HOUR_SEQUENCE` from the improved calculator's file: the fixed
Venus-first sequence its hour loop actually uses. -/
def REFERENCE_HOUR_SEQUENCE : List PlanetDay :=
  [.venus, .mercury, .moon, .saturn, .jupiter, .mars, .sun]

/-- The pair returned by `SunCalc.getTimes` (the fields the service reads). -/
structure SolarTimes where
  sunrise : ℚ
  sunset : ℚ
deriving DecidableEq, Repr, Inhabited

/-- Start instant of the 0-based hour `i` in the service calculator
(`app/services/planetaryHours.ts`): day hours are anchored at sunrise,
night hours at sunset; `dayHourLength` and `nightHourLength` are in minutes,
and `plus` with a minutes field adds `minutes * 60000` ms. -/
def hourStartA (sunrise sunset dayHourLength nightHourLength : ℚ) (i : ℕ) : ℚ :=
  if i < 12 then sunrise + ((i : ℚ) * dayHourLength) * msPerMinute
  else sunset + (((i - 12 : ℕ) : ℚ) * nightHourLength) * msPerMinute

/-- End instant of the 0-based hour `i` in the service calculator, with the
two forced seams: hour index 11 ends exactly at sunset and hour index 23
exactly at the next sunrise. -/
def hourEndA (sunrise sunset nextSunrise dayHourLength nightHourLength : ℚ)
    (i : ℕ) : ℚ :=
  if i < 12 then
    if i = 11 then sunset
    else sunrise + (((i : ℚ) + 1) * dayHourLength) * msPerMinute
  else
    if i = 23 then nextSunrise
    else sunset + ((((i - 12 : ℕ) : ℚ) + 1) * nightHourLength) * msPerMinute

/-- The loop body of the service calculator: the record pushed for the
0-based index `i`. -/
def mkHourA (sunrise sunset nextSunrise dayHourLength nightHourLength : ℚ)
    (startIndex : ℕ) (now : ℚ) (i : ℕ) : PlanetaryHour :=
  let startTime := hourStartA sunrise sunset dayHourLength nightHourLength i
  let endTime := hourEndA sunrise sunset nextSunrise dayHourLength nightHourLength i
  { hour := i + 1
    hourNumber := i + 1
    planet := chaldeanOrder.getD ((startIndex + i) % 7) .saturn
    planetId := chaldeanOrder.getD ((startIndex + i) % 7) .saturn
    period := if i < 12 then .day else .night
    isDay := decide (i < 12)
    startTime := startTime
    endTime := endTime
    isCurrentHour := decide (now ≥ startTime ∧ now < endTime) }

/-- `calculatePlanetaryHours` of `app/services/planetaryHours.ts`.
`getTimes` stands for `SunCalc.getTimes` (date, latitude, longitude), made
fallible so that Solar Time Provider failures can be expressed; the
function's own `try`/`catch` turns any such failure into a returned `[]`.
The reference instant `now` is the `date` argument itself, and the
`timezone` offset does not affect instant arithmetic. -/
def calculatePlanetaryHours (getTimes : ℚ → ℚ → ℚ → Except Unit SolarTimes)
    (latitude longitude : ℚ) (date : ℚ) (tzOffset : ℚ) : List PlanetaryHour :=
  let dayOfWeek := jsGetDay date
  let rulingPlanet := planetaryDayRulers.getD dayOfWeek.val .sun
  let startIndex := chaldeanOrder.indexOf rulingPlanet
  match getTimes date latitude longitude,
      getTimes (date + msPerDay) latitude longitude with
  | .ok times, .ok nextTimes =>
      let sunrise := times.sunrise
      let sunset := times.sunset
      let nextSunrise := nextTimes.sunrise
      let dayDuration := (sunset - sunrise) / msPerMinute
      let nightDuration := (nextSunrise - sunset) / msPerMinute
      let dayHourLength := dayDuration / 12
      let nightHourLength := nightDuration / 12
      let now := date
      (List.range 24).map
        (mkHourA sunrise sunset nextSunrise dayHourLength nightHourLength
          startIndex now)
  | _, _ => []

/-- The latitude validation inlined in `findCurrentPlanetaryHour`
(`validLatitude`): out-of-range latitudes fall back to `40.7128` (New York).
Rationals have no NaN, so the `!isNaN` conjunct is always satisfied. -/
def validLatitudeFind (latitude : ℚ) : ℚ :=
  if -90 ≤ latitude ∧ latitude ≤ 90 then latitude else 40.7128

/-- The longitude validation inlined in `findCurrentPlanetaryHour`
(`validLongitude`): out-of-range longitudes fall back to `-74.0060`. -/
def validLongitudeFind (longitude : ℚ) : ℚ :=
  if -180 ≤ longitude ∧ longitude ≤ 180 then longitude else -74.0060

/-- The latitude validation of the improved calculator
(`test-planetary-hours.ts` companion implementation): fallback `0`. -/
def validLatitudeB (latitude : ℚ) : ℚ :=
  if -90 ≤ latitude ∧ latitude ≤ 90 then latitude else 0

/-- The longitude validation of the improved calculator: fallback `0`. -/
def validLongitudeB (longitude : ℚ) : ℚ :=
  if -180 ≤ longitude ∧ longitude ≤ 180 then longitude else 0

/-- The outcome of one invocation of `findCurrentPlanetaryHour` before any
recursive call: either it returns an hour, returns `null`, or re-invokes
itself on the next or previous day. -/
inductive FindStep
  | found (h : PlanetaryHour)
  | nullResult
  | recurseNext (d : ℚ)
  | recursePrev (d : ℚ)
deriving DecidableEq, Repr

/-- One invocation level of `findCurrentPlanetaryHour`
(`app/services/planetaryHours.ts`): validate the inputs, compute the hour
set for `date`, look for a containing hour with `find`, and otherwise decide
between returning `null` and re-invoking on `date ± 1 day` (note that the
re-invocation passes the shifted date, which also becomes the new reference
instant `now`). -/
def findCurrentStep (getTimes : ℚ → ℚ → ℚ → Except Unit SolarTimes)
    (latitude longitude : ℚ) (date : ℚ) (tzOffset : ℚ) : FindStep :=
  let validDate := date
  let validLatitude := validLatitudeFind latitude
  let validLongitude := validLongitudeFind longitude
  let planetaryHours :=
    calculatePlanetaryHours getTimes validLatitude validLongitude validDate tzOffset
  let now := validDate
  match planetaryHours.find?
      (fun h => decide (now ≥ h.startTime ∧ now < h.endTime)) with
  | some currentHour => .found currentHour
  | none =>
    match planetaryHours.getLast?, planetaryHours.head? with
    | some lastHour, some firstHour =>
        if now ≥ lastHour.endTime then .recurseNext (validDate + msPerDay)
        else if now < firstHour.startTime then .recursePrev (validDate - msPerDay)
        else .nullResult
    | _, _ => .nullResult

/-- `findCurrentPlanetaryHour` run to a bounded recursion depth: `some r`
means the source function terminates within `fuel` invocation levels and
returns `r` (`some` an hour or `none` for `null`); `none` means the
recursion is still running after `fuel` levels. -/
def findCurrentRun (getTimes : ℚ → ℚ → ℚ → Except Unit SolarTimes)
    (latitude longitude : ℚ) (tzOffset : ℚ) :
    ℕ → ℚ → Option (Option PlanetaryHour)
  | 0, _ => none
  | fuel + 1, date =>
    match findCurrentStep getTimes latitude longitude date tzOffset with
    | .found h => some (some h)
    | .nullResult => some none
    | .recurseNext d => findCurrentRun getTimes latitude longitude tzOffset fuel d
    | .recursePrev d => findCurrentRun getTimes latitude longitude tzOffset fuel d

/-- Luxon's `startOf('day')` for an instant `t` in a zone with fixed UTC
offset `tzOffset` (milliseconds east of UTC). -/
def startOfDay (tzOffset t : ℚ) : ℚ :=
  (⌊(t + tzOffset) / msPerDay⌋ : ℚ) * msPerDay - tzOffset

/-- Start instant of the 1-based `hourNumber` in the improved calculator:
hour 1 starts at sunrise and hour 13 at sunset, other hours are offsets from
those anchors (the special cases compute the same value as the general
formula and are kept as written). -/
def hourStartB (sunriseTime sunsetTime dayHourDuration nightHourDuration : ℚ)
    (hourNumber : ℕ) : ℚ :=
  if hourNumber ≤ 12 then
    if hourNumber = 1 then sunriseTime
    else sunriseTime + (((hourNumber - 1 : ℕ) : ℚ) * dayHourDuration) * msPerMinute
  else
    if hourNumber = 13 then sunsetTime
    else sunsetTime + (((hourNumber - 13 : ℕ) : ℚ) * nightHourDuration) * msPerMinute

/-- End instant of the 1-based `hourNumber` in the improved calculator, with
the forced seams at hours 12 and 24. -/
def hourEndB (sunriseTime sunsetTime nextSunriseTime dayHourDuration
    nightHourDuration : ℚ) (hourNumber : ℕ) : ℚ :=
  if hourNumber ≤ 12 then
    if hourNumber = 12 then sunsetTime
    else sunriseTime + ((hourNumber : ℚ) * dayHourDuration) * msPerMinute
  else
    if hourNumber = 24 then nextSunriseTime
    else sunsetTime + ((((hourNumber - 13 : ℕ) : ℚ) + 1) * nightHourDuration) * msPerMinute

/-- The improved `calculatePlanetaryHours` found alongside
`test-planetary-hours.ts`: validates coordinates with fallback `(0, 0)`,
anchors the solar queries at the start of the local day, takes absolute
values of the durations, and assigns planets from the fixed Venus-first
`REFERENCE_HOUR_SEQUENCE`, ignoring the day ruler it computes.  `getSunrise`
and `getSunset` stand for the `sunrise-sunset-js` functions
(latitude, longitude, date). -/
def calculatePlanetaryHoursB (getSunrise getSunset : ℚ → ℚ → ℚ → ℚ)
    (latitude longitude : ℚ) (date : ℚ) (tzOffset : ℚ) : List PlanetaryHour :=
  let validLatitude := validLatitudeB latitude
  let validLongitude := validLongitudeB longitude
  let validDate := date
  let today := startOfDay tzOffset validDate
  let sunriseToday := getSunrise validLatitude validLongitude today
  let sunsetToday := getSunset validLatitude validLongitude today
  let tomorrow := today + msPerDay
  let sunriseTomorrow := getSunrise validLatitude validLongitude tomorrow
  let dayDuration := |sunsetToday - sunriseToday| / msPerMinute
  let nightDuration := |sunriseTomorrow - sunsetToday| / msPerMinute
  let dayHourDuration := dayDuration / 12
  let nightHourDuration := nightDuration / 12
  let now := validDate
  (List.range 24).map (fun k =>
    let hourNumber := k + 1
    let isDayHour := hourNumber ≤ 12
    let planetName := REFERENCE_HOUR_SEQUENCE.getD ((hourNumber - 1) % 7) .venus
    let startTime :=
      hourStartB sunriseToday sunsetToday dayHourDuration nightHourDuration hourNumber
    let endTime :=
      hourEndB sunriseToday sunsetToday sunriseTomorrow dayHourDuration
        nightHourDuration hourNumber
    { hour := hourNumber
      hourNumber := hourNumber
      planet := planetName
      planetId := planetName
      period := if isDayHour then .day else .night
      isDay := decide isDayHour
      startTime := startTime
      endTime := endTime
      isCurrentHour := decide (now ≥ startTime ∧ now < endTime) })

/-- The calendar date (as an epoch-day number) of instant `t` in a zone with
fixed UTC offset `tzOffset`. -/
def calendarDate (tzOffset t : ℚ) : ℤ :=
  ⌊(t + tzOffset) / msPerDay⌋

/-- The boundary instant between consecutive hours of the service calculator:
boundary `k` (0 ≤ k ≤ 24) separates hour index `k - 1` from hour index `k`.
Used to reason about interval disjointness. -/
def hourBoundary (sr ss dh nh : ℚ) (k : ℕ) : ℚ :=
  if k ≤ 12 then sr + (k : ℚ) * (dh * msPerMinute)
  else ss + ((k - 12 : ℕ) : ℚ) * (nh * msPerMinute)

/-- A concrete solar provider: sunrise at midnight UTC, sunset twelve hours
later, regardless of the date asked about. -/
def wProv : ℚ → ℚ → ℚ → Except Unit SolarTimes :=
  fun _ _ _ => .ok ⟨0, 43200000⟩

/-- The first hour produced by `calculatePlanetaryHours` with provider
`wProv` at instant 0 (a Thursday, so the start index is Jupiter's). -/
def wHour1 : PlanetaryHour :=
  mkHourA 0 43200000 0 60 (-60) 1 0 0

/-- A solar provider that always fails. -/
def failProv : ℚ → ℚ → ℚ → Except Unit SolarTimes :=
  fun _ _ _ => .error ()

/-- A solar provider whose events for the day starting at instant
82800000 (23:00 UTC of epoch day 0) are sunrise 06:00, sunset 18:00 and
next-day sunrise 06:00. -/
def cProv5 : ℚ → ℚ → ℚ → Except Unit SolarTimes := fun d _ _ =>
  .ok (if d < 86400000 then ⟨21600000, 64800000⟩ else ⟨108000000, 151200000⟩)

/-- A solar provider whose solar day always lies three days before the date
asked about, so that every computed 24-hour window ends before the queried
instant. -/
def bProv : ℚ → ℚ → ℚ → Except Unit SolarTimes := fun d _ _ =>
  .ok ⟨d - 3 * msPerDay, d - 3 * msPerDay + 43200000⟩

/-- A solar provider for which the `findCurrentPlanetaryHour` invocation at
instant 0 overshoots (its 24-hour window ends exactly at 0) and the
recursive invocation for the next day finds an hour that starts at
+50000000 ms, hence does not contain the original instant. -/
def cProv10 : ℚ → ℚ → ℚ → Except Unit SolarTimes := fun d _ _ =>
  .ok (if d < 86400000 then ⟨-259200000, -216000000⟩ else ⟨0, 600000000⟩)

/-- The hour returned by the `cProv10` scenario: day hour 2 of the adjacent
day, spanning 50000000 ms to 100000000 ms. -/
def wHour10 : PlanetaryHour :=
  mkHourA 0 600000000 0 (2500 / 3) (-(2500 / 3)) 4 86400000 1

/-- A constant sunrise function for the improved calculator. -/
def bSunriseFun : ℚ → ℚ → ℚ → ℚ := fun _ _ _ => 0

/-- A constant sunset function for the improved calculator. -/
def bSunsetFun : ℚ → ℚ → ℚ → ℚ := fun _ _ _ => 43200000

/-! ### Helper lemmas -/

lemma calculatePlanetaryHours_ok (getTimes : ℚ → ℚ → ℚ → Except Unit SolarTimes)
    (lat lng date tz : ℚ) (times ntimes : SolarTimes)
    (h1 : getTimes date lat lng = .ok times)
    (h2 : getTimes (date + msPerDay) lat lng = .ok ntimes) :
    calculatePlanetaryHours getTimes lat lng date tz =
      (List.range 24).map
        (mkHourA times.sunrise times.sunset ntimes.sunrise
          (((times.sunset - times.sunrise) / msPerMinute) / 12)
          (((ntimes.sunrise - times.sunset) / msPerMinute) / 12)
          (chaldeanOrder.indexOf
            (planetaryDayRulers.getD (jsGetDay date).val .sun))
          date) := by
  unfold calculatePlanetaryHours
  rw [h1, h2]

lemma calculatePlanetaryHours_get? (getTimes : ℚ → ℚ → ℚ → Except Unit SolarTimes)
    (lat lng date tz : ℚ) (times ntimes : SolarTimes)
    (h1 : getTimes date lat lng = .ok times)
    (h2 : getTimes (date + msPerDay) lat lng = .ok ntimes)
    (i : ℕ) (hi : i < 24) :
    (calculatePlanetaryHours getTimes lat lng date tz).get? i =
      some (mkHourA times.sunrise times.sunset ntimes.sunrise
        (((times.sunset - times.sunrise) / msPerMinute) / 12)
        (((ntimes.sunrise - times.sunset) / msPerMinute) / 12)
        (chaldeanOrder.indexOf
          (planetaryDayRulers.getD (jsGetDay date).val .sun))
        date i) := by
  rw [calculatePlanetaryHours_ok getTimes lat lng date tz times ntimes h1 h2]
  rw [List.get?_map, List.get?_range hi]
  rfl

lemma calculatePlanetaryHours_error
    (getTimes : ℚ → ℚ → ℚ → Except Unit SolarTimes) (lat lng date tz : ℚ)
    (h : (∃ e, getTimes date lat lng = .error e) ∨
         (∃ e, getTimes (date + msPerDay) lat lng = .error e)) :
    calculatePlanetaryHours getTimes lat lng date tz = [] := by
  unfold calculatePlanetaryHours
  rcases h with ⟨e, he⟩ | ⟨e, he⟩
  · rw [he]
  · rw [he]
    cases getTimes date lat lng <;> rfl

lemma anchor_identity (a b : ℚ) :
    b = a + 12 * ((((b - a) / msPerMinute) / 12) * msPerMinute) := by
  unfold msPerMinute
  ring

/-- Interior seams agree by construction; the two forced seams agree because
hour 12 starts at sunset plus zero night hours and hour 13's start is forced
to sunset itself. -/
lemma seamA (sr ss ns dh nh : ℚ) (i : ℕ) (hi : i < 23) :
    hourEndA sr ss ns dh nh i = hourStartA sr ss dh nh (i + 1) := by
  unfold hourEndA hourStartA
  rcases lt_or_ge i 12 with h | h
  · by_cases h11 : i = 11
    · subst h11
      norm_num
    · have h1 : i + 1 < 12 := by omega
      rw [if_pos h, if_neg h11, if_pos h1]
      push_cast
      ring
  · have h23 : i ≠ 23 := by omega
    rw [if_neg (not_lt.mpr h), if_neg h23, if_neg (by omega : ¬ i + 1 < 12)]
    have hsub : (i + 1 - 12 : ℕ) = (i - 12) + 1 := by omega
    rw [hsub]
    push_cast
    ring

lemma hourStartA_eq_boundary (sr ss dh nh : ℚ)
    (h12 : ss = sr + 12 * (dh * msPerMinute)) (i : ℕ) :
    hourStartA sr ss dh nh i = hourBoundary sr ss dh nh i := by
  unfold hourStartA hourBoundary
  rcases lt_or_ge i 12 with h | h
  · rw [if_pos h, if_pos (le_of_lt h)]
    ring
  · rw [if_neg (not_lt.mpr h)]
    rcases eq_or_lt_of_le h with h' | h'
    · rw [← h']
      norm_num [h12]
    · rw [if_neg (by omega : ¬ i ≤ 12)]
      ring

lemma hourEndA_eq_boundary (sr ss ns dh nh : ℚ)
    (h12 : ss = sr + 12 * (dh * msPerMinute))
    (h24 : ns = ss + 12 * (nh * msPerMinute)) (i : ℕ) (hi : i < 24) :
    hourEndA sr ss ns dh nh i = hourBoundary sr ss dh nh (i + 1) := by
  unfold hourEndA hourBoundary
  rcases lt_or_ge i 12 with h | h
  · rw [if_pos h]
    by_cases h11 : i = 11
    · subst h11
      rw [if_pos (by norm_num : (11 : ℕ) + 1 ≤ 12)]
      push_cast
      linarith [h12]
    · have hle : i + 1 ≤ 12 := by omega
      rw [if_neg h11, if_pos hle]
      push_cast
      ring
  · rw [if_neg (not_lt.mpr h)]
    by_cases h23 : i = 23
    · subst h23
      rw [if_neg (by norm_num : ¬ (23 : ℕ) + 1 ≤ 12)]
      norm_num
      linarith [h24]
    · have hgt : ¬ i + 1 ≤ 12 := by omega
      rw [if_neg h23, if_neg hgt]
      have hsub : (i + 1 - 12 : ℕ) = (i - 12) + 1 := by omega
      rw [hsub]
      push_cast
      ring

lemma hourBoundary_night (sr ss dh nh : ℚ)
    (h12 : ss = sr + 12 * (dh * msPerMinute)) (k : ℕ) (hk : 12 ≤ k) :
    hourBoundary sr ss dh nh k = ss + ((k - 12 : ℕ) : ℚ) * (nh * msPerMinute) := by
  unfold hourBoundary
  by_cases h : k ≤ 12
  · have hk12 : k = 12 := le_antisymm h hk
    subst hk12
    norm_num [h12]
  · rw [if_neg h]

/-- If an instant lies in the half-open interval of hour `i` and `i < j`,
it cannot also lie in the interval of hour `j`: a nonempty interval forces
the relevant hour length to be positive, which orders the boundaries. -/
lemma no_cross (sr ss ns dh nh t : ℚ)
    (h12 : ss = sr + 12 * (dh * msPerMinute))
    (h24 : ns = ss + 12 * (nh * msPerMinute))
    (i j : ℕ) (hij : i < j) (hj : j < 24)
    (hti : hourStartA sr ss dh nh i ≤ t ∧ t < hourEndA sr ss ns dh nh i)
    (htj : hourStartA sr ss dh nh j ≤ t ∧ t < hourEndA sr ss ns dh nh j) :
    False := by
  have hi : i < 24 := by omega
  rw [hourStartA_eq_boundary sr ss dh nh h12 i,
    hourEndA_eq_boundary sr ss ns dh nh h12 h24 i hi] at hti
  rw [hourStartA_eq_boundary sr ss dh nh h12 j,
    hourEndA_eq_boundary sr ss ns dh nh h12 h24 j hj] at htj
  have hmm : (0 : ℚ) < msPerMinute := by norm_num [msPerMinute]
  have hstepi : hourBoundary sr ss dh nh i < hourBoundary sr ss dh nh (i + 1) :=
    lt_of_le_of_lt hti.1 hti.2
  have hstepj : hourBoundary sr ss dh nh j < hourBoundary sr ss dh nh (j + 1) :=
    lt_of_le_of_lt htj.1 htj.2
  have key : hourBoundary sr ss dh nh (i + 1) ≤ hourBoundary sr ss dh nh j := by
    rcases le_or_lt j 12 with hj12 | hj12
    · -- both boundaries on the day side; the day step at i is positive
      have hX : 0 < dh * msPerMinute := by
        have e1 : hourBoundary sr ss dh nh i = sr + (i : ℚ) * (dh * msPerMinute) := by
          unfold hourBoundary
          rw [if_pos (by omega : i ≤ 12)]
        have e2 : hourBoundary sr ss dh nh (i + 1)
            = sr + ((i : ℚ) + 1) * (dh * msPerMinute) := by
          unfold hourBoundary
          rw [if_pos (by omega : i + 1 ≤ 12)]
          push_cast
          ring
        rw [e1, e2] at hstepi
        nlinarith [hstepi]
      have e2 : hourBoundary sr ss dh nh (i + 1)
          = sr + ((i : ℚ) + 1) * (dh * msPerMinute) := by
        unfold hourBoundary
        rw [if_pos (by omega : i + 1 ≤ 12)]
        push_cast
        ring
      have e3 : hourBoundary sr ss dh nh j = sr + (j : ℚ) * (dh * msPerMinute) := by
        unfold hourBoundary
        rw [if_pos hj12]
      rw [e2, e3]
      have hcast : ((i : ℚ) + 1) ≤ (j : ℚ) := by
        exact_mod_cast Nat.succ_le_of_lt hij
      nlinarith [hX, hcast]
    · -- j starts on the night side; the night step at j is positive
      have hY : 0 < nh * msPerMinute := by
        have e1 := hourBoundary_night sr ss dh nh h12 j (by omega)
        have e2 := hourBoundary_night sr ss dh nh h12 (j + 1) (by omega)
        rw [e1, e2] at hstepj
        have hsub : (j + 1 - 12 : ℕ) = (j - 12) + 1 := by omega
        rw [hsub] at hstepj
        push_cast at hstepj
        nlinarith [hstepj]
      have e3 := hourBoundary_night sr ss dh nh h12 j (by omega)
      rcases le_or_lt (i + 1) 12 with hi12 | hi12
      · -- i ends on the day side: climb to noon boundary, then along the night
        have hX : 0 < dh * msPerMinute := by
          have e1 : hourBoundary sr ss dh nh i = sr + (i : ℚ) * (dh * msPerMinute) := by
            unfold hourBoundary
            rw [if_pos (by omega : i ≤ 12)]
          have e2 : hourBoundary sr ss dh nh (i + 1)
              = sr + ((i : ℚ) + 1) * (dh * msPerMinute) := by
            unfold hourBoundary
            rw [if_pos hi12]
            push_cast
            ring
          rw [e1, e2] at hstepi
          nlinarith [hstepi]
        have e2 : hourBoundary sr ss dh nh (i + 1)
            = sr + ((i : ℚ) + 1) * (dh * msPerMinute) := by
          unfold hourBoundary
          rw [if_pos hi12]
          push_cast
          ring
        rw [e2, e3]
        have hcast : ((i : ℚ) + 1) ≤ 12 := by
          exact_mod_cast hi12
        have hnn : (0 : ℚ) ≤ ((j - 12 : ℕ) : ℚ) := by positivity
        nlinarith [hX, hY, hcast, hnn, h12]
      · -- both on the night side
        have e2 := hourBoundary_night sr ss dh nh h12 (i + 1) (by omega)
        rw [e2, e3]
        have hcast : (((i + 1 - 12 : ℕ)) : ℚ) ≤ ((j - 12 : ℕ) : ℚ) := by
          have : (i + 1 - 12 : ℕ) ≤ (j - 12 : ℕ) := by omega
          exact_mod_cast this
        nlinarith [hY, hcast]
  exact absurd (lt_of_lt_of_le hti.2 (le_trans key htj.1)) (lt_irrefl t)

/-- Evaluation of the day-of-week function: if `t` lies within epoch day
`k`, then `getDay` returns `(k + 4) % 7`. -/
lemma jsGetDay_val (t : ℚ) (k : ℤ) (h1 : (k : ℚ) * msPerDay ≤ t)
    (h2 : t < ((k : ℚ) + 1) * msPerDay) :
    (jsGetDay t).val = ((k + 4) % 7).toNat := by
  unfold jsGetDay
  have hpos : (0 : ℚ) < msPerDay := by norm_num [msPerDay]
  have hfl : ⌊t / msPerDay⌋ = k := by
    rw [Int.floor_eq_iff]
    constructor
    · rw [le_div_iff hpos]
      exact h1
    · rw [div_lt_iff hpos]
      exact h2
  simp only [Fin.val_mk]
  rw [hfl]

/-- The hour list produced by the service calculator with provider `wProv`
at instant 0 (epoch day 0, a Thursday: start index 1, Jupiter). -/
lemma wProv_hours :
    calculatePlanetaryHours wProv 0 0 0 0 =
      (List.range 24).map (mkHourA 0 43200000 0 60 (-60) 1 0) := by
  rw [calculatePlanetaryHours_ok wProv 0 0 0 0 ⟨0, 43200000⟩ ⟨0, 43200000⟩ rfl rfl]
  have hd : (jsGetDay 0).val = 4 := by
    have h := jsGetDay_val 0 0 (by norm_num) (by norm_num [msPerDay])
    simpa using h
  rw [hd]
  have hrul : planetaryDayRulers.getD 4 PlanetDay.sun = PlanetDay.jupiter := by decide
  rw [hrul]
  have hidx : chaldeanOrder.indexOf PlanetDay.jupiter = 1 := by decide
  rw [hidx]
  norm_num [msPerMinute]

/-- Whichever day of the week rules, adding a multiple of seven hours to the
ruler's Chaldean position lands back on the ruler. -/
lemma day_ruler_hours (d : Fin 7) (k : ℕ)
    (hk : k = 0 ∨ k = 7 ∨ k = 14 ∨ k = 21) :
    chaldeanOrder.getD
        ((chaldeanOrder.indexOf (planetaryDayRulers.getD d.val .sun) + k) % 7)
        .saturn
      = planetaryDayRulers.getD d.val .sun := by
  rcases hk with rfl | rfl | rfl | rfl <;> revert d <;> decide

lemma hourEndA_le (sr ss ns dh nh : ℚ)
    (h12 : ss = sr + 12 * (dh * msPerMinute))
    (h24 : ns = ss + 12 * (nh * msPerMinute))
    (hdh : 0 ≤ dh) (hnh : 0 ≤ nh) (i : ℕ) (hi : i < 24) :
    hourEndA sr ss ns dh nh i ≤ ns := by
  rw [hourEndA_eq_boundary sr ss ns dh nh h12 h24 i hi]
  have hmm : (0 : ℚ) ≤ msPerMinute := by norm_num [msPerMinute]
  have hX : 0 ≤ dh * msPerMinute := mul_nonneg hdh hmm
  have hY : 0 ≤ nh * msPerMinute := mul_nonneg hnh hmm
  rcases le_or_lt (i + 1) 12 with h | h
  · unfold hourBoundary
    rw [if_pos h]
    have hc : ((i : ℚ) + 1) ≤ 12 := by exact_mod_cast h
    have key : 0 ≤ (12 - ((i : ℚ) + 1)) * (dh * msPerMinute) :=
      mul_nonneg (by linarith) hX
    push_cast
    nlinarith [key, hY]
  · rw [hourBoundary_night sr ss dh nh h12 (i + 1) (by omega)]
    have hc : (((i + 1 - 12 : ℕ)) : ℚ) ≤ 12 := by
      have h' : (i + 1 - 12 : ℕ) ≤ 12 := by omega
      exact_mod_cast h'
    have key : 0 ≤ (12 - (((i + 1 - 12 : ℕ)) : ℚ)) * (nh * msPerMinute) :=
      mul_nonneg (by linarith) hY
    nlinarith [key]

lemma find?_none_of_window_past (sr ss ns dh nh : ℚ) (s : ℕ) (tm now : ℚ)
    (h12 : ss = sr + 12 * (dh * msPerMinute))
    (h24 : ns = ss + 12 * (nh * msPerMinute))
    (hdh : 0 ≤ dh) (hnh : 0 ≤ nh) (hns : ns ≤ now) :
    ((List.range 24).map (mkHourA sr ss ns dh nh s tm)).find?
      (fun h => decide (now ≥ h.startTime ∧ now < h.endTime)) = none := by
  rw [List.find?_eq_none]
  intro x hx
  obtain ⟨i, hi, rfl⟩ : ∃ i, i < 24 ∧ mkHourA sr ss ns dh nh s tm i = x := by
    simpa using hx
  simp only [mkHourA, decide_eq_true_eq]
  intro hc
  have hle := hourEndA_le sr ss ns dh nh h12 h24 hdh hnh i hi
  exact absurd (lt_of_lt_of_le hc.2 (le_trans hle hns)) (lt_irrefl now)

lemma findCurrentStep_eq_recurseNext
    (getTimes : ℚ → ℚ → ℚ → Except Unit SolarTimes)
    (lat lng date tz : ℚ) (times ntimes : SolarTimes)
    (h1 : getTimes date (validLatitudeFind lat) (validLongitudeFind lng) = .ok times)
    (h2 : getTimes (date + msPerDay) (validLatitudeFind lat) (validLongitudeFind lng)
      = .ok ntimes)
    (hdh : 0 ≤ ((times.sunset - times.sunrise) / msPerMinute) / 12)
    (hnh : 0 ≤ ((ntimes.sunrise - times.sunset) / msPerMinute) / 12)
    (hpast : ntimes.sunrise ≤ date) :
    findCurrentStep getTimes lat lng date tz = .recurseNext (date + msPerDay) := by
  simp only [findCurrentStep]
  rw [calculatePlanetaryHours_ok getTimes (validLatitudeFind lat)
    (validLongitudeFind lng) date tz times ntimes h1 h2]
  rw [find?_none_of_window_past times.sunrise times.sunset ntimes.sunrise
    (((times.sunset - times.sunrise) / msPerMinute) / 12)
    (((ntimes.sunrise - times.sunset) / msPerMinute) / 12)
    (chaldeanOrder.indexOf (planetaryDayRulers.getD (jsGetDay date).val .sun))
    date date
    (anchor_identity times.sunrise times.sunset)
    (anchor_identity times.sunset ntimes.sunrise) hdh hnh hpast]
  simp only [List.getLast?_map, List.head?_map,
    show (List.range 24).getLast? = some 23 from by decide,
    show (List.range 24).head? = some 0 from rfl, Option.map_some']
  have hend : (mkHourA times.sunrise times.sunset ntimes.sunrise
      (((times.sunset - times.sunrise) / msPerMinute) / 12)
      (((ntimes.sunrise - times.sunset) / msPerMinute) / 12)
      (chaldeanOrder.indexOf (planetaryDayRulers.getD (jsGetDay date).val .sun))
      date 23).endTime = ntimes.sunrise := by
    simp [mkHourA, hourEndA]
  rw [hend, if_pos hpast]

lemma findCurrentStep_bProv (t : ℚ) :
    findCurrentStep bProv 0 0 t 0 = FindStep.recurseNext (t + msPerDay) := by
  refine findCurrentStep_eq_recurseNext bProv 0 0 t 0
    ⟨t - 3 * msPerDay, t - 3 * msPerDay + 43200000⟩
    ⟨t + msPerDay - 3 * msPerDay, t + msPerDay - 3 * msPerDay + 43200000⟩
    rfl rfl ?_ ?_ ?_
  · have e : (t - 3 * msPerDay + 43200000) - (t - 3 * msPerDay) = (43200000 : ℚ) := by
      ring
    show 0 ≤ ((t - 3 * msPerDay + 43200000) - (t - 3 * msPerDay)) / msPerMinute / 12
    rw [e]
    norm_num [msPerMinute]
  · have e : (t + msPerDay - 3 * msPerDay) - (t - 3 * msPerDay + 43200000)
        = msPerDay - 43200000 := by ring
    show 0 ≤ ((t + msPerDay - 3 * msPerDay) - (t - 3 * msPerDay + 43200000))
      / msPerMinute / 12
    rw [e]
    norm_num [msPerMinute, msPerDay]
  · show t + msPerDay - 3 * msPerDay ≤ t
    have : (0 : ℚ) < msPerDay := by norm_num [msPerDay]
    linarith

lemma findCurrentStep_cProv10_day0 :
    findCurrentStep cProv10 0 0 0 0 = FindStep.recurseNext 86400000 := by
  have h := findCurrentStep_eq_recurseNext cProv10 0 0 0 0
    ⟨-259200000, -216000000⟩ ⟨0, 600000000⟩
    (by
      show cProv10 0 (validLatitudeFind 0) (validLongitudeFind 0) = _
      unfold cProv10
      rw [if_pos (by norm_num : (0 : ℚ) < 86400000)])
    (by
      show cProv10 (0 + msPerDay) (validLatitudeFind 0) (validLongitudeFind 0) = _
      unfold cProv10
      rw [if_neg (by norm_num [msPerDay] : ¬ ((0 : ℚ) + msPerDay < 86400000))])
    (by norm_num [msPerMinute])
    (by norm_num [msPerMinute])
    (by norm_num)
  rw [show (0 : ℚ) + msPerDay = 86400000 from by norm_num [msPerDay]] at h
  exact h

lemma calc_cProv10_day1 :
    calculatePlanetaryHours cProv10 0 0 86400000 0 =
      (List.range 24).map (mkHourA 0 600000000 0 (2500 / 3) (-(2500 / 3)) 4 86400000) := by
  have h1 : cProv10 86400000 0 0 = .ok ⟨0, 600000000⟩ := by
    unfold cProv10
    rw [if_neg (by norm_num : ¬ ((86400000 : ℚ) < 86400000))]
  have h2 : cProv10 (86400000 + msPerDay) 0 0 = .ok ⟨0, 600000000⟩ := by
    unfold cProv10
    rw [if_neg (by norm_num [msPerDay] : ¬ ((86400000 : ℚ) + msPerDay < 86400000))]
  rw [calculatePlanetaryHours_ok cProv10 0 0 86400000 0 ⟨0, 600000000⟩
    ⟨0, 600000000⟩ h1 h2]
  have hd : (jsGetDay 86400000).val = 5 := by
    have h := jsGetDay_val 86400000 1 (by norm_num [msPerDay]) (by norm_num [msPerDay])
    simpa using h
  rw [hd, show planetaryDayRulers.getD 5 PlanetDay.sun = PlanetDay.venus from by decide,
    show chaldeanOrder.indexOf PlanetDay.venus = 4 from by decide]
  norm_num [msPerMinute]

lemma findCurrentStep_cProv10_day1 :
    findCurrentStep cProv10 0 0 86400000 0 = FindStep.found wHour10 := by
  have hv1 : validLatitudeFind 0 = 0 := by norm_num [validLatitudeFind]
  have hv2 : validLongitudeFind 0 = 0 := by norm_num [validLongitudeFind]
  have hfind : ((List.range 24).map
        (mkHourA 0 600000000 0 (2500 / 3) (-(2500 / 3)) 4 86400000)).find?
      (fun h => decide ((86400000 : ℚ) ≥ h.startTime ∧ (86400000 : ℚ) < h.endTime))
      = some wHour10 := by
    rw [show List.range 24 = 0 :: 1 :: List.range' 2 22 from by decide]
    rw [List.map_cons, List.map_cons]
    rw [List.find?_cons_of_neg _ (by
      norm_num [mkHourA, hourStartA, hourEndA, msPerMinute])]
    rw [List.find?_cons_of_pos _ (by
      norm_num [mkHourA, hourStartA, hourEndA, msPerMinute])]
    rfl
  simp only [findCurrentStep, hv1, hv2]
  rw [calc_cProv10_day1, hfind]

lemma findCurrentStep_wProv :
    findCurrentStep wProv 0 0 0 0 = FindStep.found wHour1 := by
  have hv1 : validLatitudeFind 0 = 0 := by norm_num [validLatitudeFind]
  have hv2 : validLongitudeFind 0 = 0 := by norm_num [validLongitudeFind]
  have hfind : ((List.range 24).map (mkHourA 0 43200000 0 60 (-60) 1 0)).find?
      (fun h => decide ((0 : ℚ) ≥ h.startTime ∧ (0 : ℚ) < h.endTime))
      = some wHour1 := by
    rw [show List.range 24 = 0 :: List.range' 1 23 from by decide]
    rw [List.map_cons]
    rw [List.find?_cons_of_pos _ (by
      norm_num [mkHourA, hourStartA, hourEndA, msPerMinute])]
    rfl
  simp only [findCurrentStep, hv1, hv2]
  rw [wProv_hours, hfind]

/-! ### Claims -/

/-- C1: for every date/location/timezone input on which the service
calculator succeeds, the planet of hour `h` (1-based, `h` in 1..24) is
`chaldeanOrder[(startIndex + h - 1) % 7]`, where `startIndex` is the
position in the Chaldean sequence of the ruling planet of the date's day of
week; in particular hours 1, 8, 15 and 22 carry the day's ruling planet. -/
theorem modular_planet_law (getTimes : ℚ → ℚ → ℚ → Except Unit SolarTimes)
    (lat lng date tz : ℚ) (times ntimes : SolarTimes)
    (h1 : getTimes date lat lng = .ok times)
    (h2 : getTimes (date + msPerDay) lat lng = .ok ntimes)
    (h : ℕ) (hlo : 1 ≤ h) (hhi : h ≤ 24) (hr : PlanetaryHour)
    (hget : (calculatePlanetaryHours getTimes lat lng date tz).get? (h - 1) = some hr) :
    hr.planet = chaldeanOrder.getD
        ((chaldeanOrder.indexOf (planetaryDayRulers.getD (jsGetDay date).val .sun)
          + h - 1) % 7) .saturn
    ∧ ((h = 1 ∨ h = 8 ∨ h = 15 ∨ h = 22) →
        hr.planet = planetaryDayRulers.getD (jsGetDay date).val .sun) := by
  rw [calculatePlanetaryHours_get? getTimes lat lng date tz times ntimes h1 h2
    (h - 1) (by omega)] at hget
  have hhr : hr = mkHourA times.sunrise times.sunset ntimes.sunrise
      (((times.sunset - times.sunrise) / msPerMinute) / 12)
      (((ntimes.sunrise - times.sunset) / msPerMinute) / 12)
      (chaldeanOrder.indexOf (planetaryDayRulers.getD (jsGetDay date).val .sun))
      date (h - 1) := (Option.some.inj hget).symm
  have hplanet : hr.planet = chaldeanOrder.getD
      ((chaldeanOrder.indexOf (planetaryDayRulers.getD (jsGetDay date).val .sun)
        + (h - 1)) % 7) .saturn := by
    rw [hhr]
    rfl
  constructor
  · rw [hplanet]
    have e : chaldeanOrder.indexOf (planetaryDayRulers.getD (jsGetDay date).val .sun)
        + h - 1
        = chaldeanOrder.indexOf (planetaryDayRulers.getD (jsGetDay date).val .sun)
          + (h - 1) := by omega
    rw [e]
  · intro hc
    rw [hplanet]
    apply day_ruler_hours
    omega

/-- C1 witness: the concrete Thursday scenario with provider `wProv`. -/
theorem modular_planet_law_witness :
    wHour1.planet = chaldeanOrder.getD
        ((chaldeanOrder.indexOf (planetaryDayRulers.getD (jsGetDay 0).val .sun)
          + 1 - 1) % 7) .saturn
    ∧ (((1 : ℕ) = 1 ∨ (1 : ℕ) = 8 ∨ (1 : ℕ) = 15 ∨ (1 : ℕ) = 22) →
        wHour1.planet = planetaryDayRulers.getD (jsGetDay 0).val .sun) :=
  modular_planet_law wProv 0 0 0 0 ⟨0, 43200000⟩ ⟨0, 43200000⟩ rfl rfl
    1 (by norm_num) (by norm_num) wHour1
    (by
      rw [wProv_hours, List.get?_map, List.get?_range (by norm_num : 1 - 1 < 24)]
      rfl)

/-- C2 counterexample: when the Solar Time Provider fails, the service
calculator catches the failure and returns an empty list of hours — a
normal value, not a typed error. -/
theorem failure_swallowed :
    calculatePlanetaryHours failProv 0 0 0 0 = [] := rfl

/-- C2 as amended: whenever either Solar Time Provider call fails, the
service calculator swallows the failure and returns the empty list. -/
theorem provider_failure_yields_empty
    (getTimes : ℚ → ℚ → ℚ → Except Unit SolarTimes) (lat lng date tz : ℚ)
    (h : (∃ e, getTimes date lat lng = .error e) ∨
         (∃ e, getTimes (date + msPerDay) lat lng = .error e)) :
    calculatePlanetaryHours getTimes lat lng date tz = [] :=
  calculatePlanetaryHours_error getTimes lat lng date tz h

/-- C2 witness for the amended statement: a provider failing on the first
call. -/
theorem provider_failure_yields_empty_witness :
    calculatePlanetaryHours failProv 1 2 3 0 = [] :=
  provider_failure_yields_empty failProv 1 2 3 0 (Or.inl ⟨(), rfl⟩)

/-- C3: on success the service calculator returns exactly 24 hours, the
`hourNumber` of the element at index `i` is `i + 1` (so the numbers are
1..24 strictly increasing), and each hour's end instant equals the next
hour's start instant. -/
theorem partition_complete (getTimes : ℚ → ℚ → ℚ → Except Unit SolarTimes)
    (lat lng date tz : ℚ) (times ntimes : SolarTimes)
    (h1 : getTimes date lat lng = .ok times)
    (h2 : getTimes (date + msPerDay) lat lng = .ok ntimes) :
    (calculatePlanetaryHours getTimes lat lng date tz).length = 24
    ∧ (∀ i : ℕ, i < 24 → ∀ hr : PlanetaryHour,
        (calculatePlanetaryHours getTimes lat lng date tz).get? i = some hr →
        hr.hourNumber = i + 1)
    ∧ (∀ i : ℕ, i < 23 → ∀ hr hr' : PlanetaryHour,
        (calculatePlanetaryHours getTimes lat lng date tz).get? i = some hr →
        (calculatePlanetaryHours getTimes lat lng date tz).get? (i + 1) = some hr' →
        hr.endTime = hr'.startTime) := by
  refine ⟨?_, ?_, ?_⟩
  · rw [calculatePlanetaryHours_ok getTimes lat lng date tz times ntimes h1 h2]
    simp
  · intro i hi hr hget
    rw [calculatePlanetaryHours_get? getTimes lat lng date tz times ntimes h1 h2
      i hi] at hget
    rw [← Option.some.inj hget]
    rfl
  · intro i hi hr hr' hget hget'
    rw [calculatePlanetaryHours_get? getTimes lat lng date tz times ntimes h1 h2
      i (by omega)] at hget
    rw [calculatePlanetaryHours_get? getTimes lat lng date tz times ntimes h1 h2
      (i + 1) (by omega)] at hget'
    rw [← Option.some.inj hget, ← Option.some.inj hget']
    show hourEndA _ _ _ _ _ i = hourStartA _ _ _ _ (i + 1)
    exact seamA _ _ _ _ _ i hi

/-- C3 witness: the concrete `wProv` scenario has 24 hours. -/
theorem partition_complete_witness :
    (calculatePlanetaryHours wProv 0 0 0 0).length = 24 :=
  (partition_complete wProv 0 0 0 0 ⟨0, 43200000⟩ ⟨0, 43200000⟩ rfl rfl).1

/-- C4: on success, hour 1 starts exactly at the provider's sunrise, hour 12
ends exactly at its sunset, hour 13 starts exactly at its sunset, and hour
24 ends exactly at the next day's sunrise. -/
theorem day_night_split (getTimes : ℚ → ℚ → ℚ → Except Unit SolarTimes)
    (lat lng date tz : ℚ) (times ntimes : SolarTimes)
    (h1 : getTimes date lat lng = .ok times)
    (h2 : getTimes (date + msPerDay) lat lng = .ok ntimes) :
    ((calculatePlanetaryHours getTimes lat lng date tz).get? 0).map
        PlanetaryHour.startTime = some times.sunrise
    ∧ ((calculatePlanetaryHours getTimes lat lng date tz).get? 11).map
        PlanetaryHour.endTime = some times.sunset
    ∧ ((calculatePlanetaryHours getTimes lat lng date tz).get? 12).map
        PlanetaryHour.startTime = some times.sunset
    ∧ ((calculatePlanetaryHours getTimes lat lng date tz).get? 23).map
        PlanetaryHour.endTime = some ntimes.sunrise := by
  refine ⟨?_, ?_, ?_, ?_⟩
  · rw [calculatePlanetaryHours_get? getTimes lat lng date tz times ntimes h1 h2
      0 (by norm_num)]
    simp [mkHourA, hourStartA]
  · rw [calculatePlanetaryHours_get? getTimes lat lng date tz times ntimes h1 h2
      11 (by norm_num)]
    simp [mkHourA, hourEndA]
  · rw [calculatePlanetaryHours_get? getTimes lat lng date tz times ntimes h1 h2
      12 (by norm_num)]
    simp [mkHourA, hourStartA]
  · rw [calculatePlanetaryHours_get? getTimes lat lng date tz times ntimes h1 h2
      23 (by norm_num)]
    simp [mkHourA, hourEndA]

/-- C4 witness: in the `wProv` scenario hour 1 starts at the sunrise 0. -/
theorem day_night_split_witness :
    ((calculatePlanetaryHours wProv 0 0 0 0).get? 0).map
      PlanetaryHour.startTime = some (0 : ℚ) :=
  (day_night_split wProv 0 0 0 0 ⟨0, 43200000⟩ ⟨0, 43200000⟩ rfl rfl).1

/-- C5 counterexample: with provider `cProv5`, target offset +14 h and the
instant 23:00 UTC of epoch day 0 as the queried date (the same instant is
the reference instant `now`), the instant's calendar date in the target
zone is day 1 while the queried calendar date is day 0 — yet hour 18 of the
returned set is flagged current, because the code never compares calendar
dates. -/
theorem current_flag_ignores_calendar_date :
    calendarDate 50400000 82800000 ≠ calendarDate 0 82800000
    ∧ ((calculatePlanetaryHours cProv5 0 0 82800000 50400000).get? 17).map
        PlanetaryHour.isCurrentHour = some true := by
  constructor
  · unfold calendarDate
    have e1 : ⌊((82800000 : ℚ) + 50400000) / msPerDay⌋ = 1 := by
      rw [Int.floor_eq_iff]
      norm_num [msPerDay]
    have e2 : ⌊((82800000 : ℚ) + 0) / msPerDay⌋ = 0 := by
      rw [Int.floor_eq_iff]
      norm_num [msPerDay]
    rw [e1, e2]
    norm_num
  · have h1 : cProv5 82800000 0 0 = .ok ⟨21600000, 64800000⟩ := by
      unfold cProv5
      rw [if_pos (by norm_num)]
    have h2 : cProv5 (82800000 + msPerDay) 0 0 = .ok ⟨108000000, 151200000⟩ := by
      unfold cProv5
      rw [if_neg (by norm_num [msPerDay])]
    rw [calculatePlanetaryHours_get? cProv5 0 0 82800000 50400000
      ⟨21600000, 64800000⟩ ⟨108000000, 151200000⟩ h1 h2 17 (by norm_num)]
    simp only [Option.map_some', mkHourA]
    norm_num [hourStartA, hourEndA, msPerMinute]

/-- C5 as amended: the service calculator applies no date gate at all — an
hour of the returned set is flagged current exactly when the supplied date
instant lies in its half-open interval. -/
theorem isCurrent_iff_interval (getTimes : ℚ → ℚ → ℚ → Except Unit SolarTimes)
    (lat lng date tz : ℚ) (hr : PlanetaryHour)
    (hmem : hr ∈ calculatePlanetaryHours getTimes lat lng date tz) :
    hr.isCurrentHour = true ↔ (hr.startTime ≤ date ∧ date < hr.endTime) := by
  cases h1 : getTimes date lat lng with
  | error e =>
    rw [calculatePlanetaryHours_error getTimes lat lng date tz
      (Or.inl ⟨e, h1⟩)] at hmem
    simp at hmem
  | ok times =>
    cases h2 : getTimes (date + msPerDay) lat lng with
    | error e =>
      rw [calculatePlanetaryHours_error getTimes lat lng date tz
        (Or.inr ⟨e, h2⟩)] at hmem
      simp at hmem
    | ok ntimes =>
      rw [calculatePlanetaryHours_ok getTimes lat lng date tz times ntimes
        h1 h2] at hmem
      obtain ⟨i, hi, rfl⟩ : ∃ i, i < 24 ∧ mkHourA times.sunrise times.sunset
          ntimes.sunrise (((times.sunset - times.sunrise) / msPerMinute) / 12)
          (((ntimes.sunrise - times.sunset) / msPerMinute) / 12)
          (chaldeanOrder.indexOf
            (planetaryDayRulers.getD (jsGetDay date).val .sun)) date i = hr := by
        simpa using hmem
      simp [mkHourA, ge_iff_le, and_comm]

/-- C5 witness for the amended statement: the current flag of the first
`wProv` hour is equivalent to interval containment of the instant 0. -/
theorem isCurrent_iff_interval_witness :
    wHour1 ∈ calculatePlanetaryHours wProv 0 0 0 0
    ∧ (wHour1.isCurrentHour = true ↔
        (wHour1.startTime ≤ 0 ∧ (0 : ℚ) < wHour1.endTime)) := by
  have hmem : wHour1 ∈ calculatePlanetaryHours wProv 0 0 0 0 := by
    rw [wProv_hours]
    exact List.mem_map.mpr ⟨0, by simp, rfl⟩
  exact ⟨hmem, isCurrent_iff_interval wProv 0 0 0 0 wHour1 hmem⟩

/-- C7 counterexample: `findCurrentPlanetaryHour` substitutes New York
(40.7128, -74.0060) for out-of-range coordinates, not the documented
(0, 0). -/
theorem fallback_not_zero :
    validLatitudeFind 100 = 40.7128 ∧ validLongitudeFind 200 = -74.0060
    ∧ validLatitudeFind 100 ≠ 0 ∧ validLongitudeFind 200 ≠ 0 := by
  unfold validLatitudeFind validLongitudeFind
  rw [if_neg (by norm_num), if_neg (by norm_num)]
  norm_num

/-- C7 as amended: invalid coordinates are substituted, never rejected, but
the fallback is not consistent across entry points: the improved calculator
substitutes (0, 0) while `findCurrentPlanetaryHour` substitutes
(40.7128, -74.0060). -/
theorem coordinate_fallbacks_inconsistent (lat lng : ℚ)
    (hlat : ¬ (-90 ≤ lat ∧ lat ≤ 90)) (hlng : ¬ (-180 ≤ lng ∧ lng ≤ 180)) :
    validLatitudeB lat = 0 ∧ validLongitudeB lng = 0
    ∧ validLatitudeFind lat = 40.7128 ∧ validLongitudeFind lng = -74.0060 := by
  unfold validLatitudeB validLongitudeB validLatitudeFind validLongitudeFind
  rw [if_neg hlat, if_neg hlng, if_neg hlat, if_neg hlng]
  exact ⟨rfl, rfl, rfl, rfl⟩

/-- C7 witness: latitude 100 and longitude 200 are out of range. -/
theorem coordinate_fallbacks_inconsistent_witness :
    validLatitudeB 100 = 0 ∧ validLongitudeB 200 = 0
    ∧ validLatitudeFind 100 = 40.7128 ∧ validLongitudeFind 200 = -74.0060 :=
  coordinate_fallbacks_inconsistent 100 200 (by norm_num) (by norm_num)

/-- C8: the two calculators are not extensionally equal: on epoch day 3 (a
Sunday) the service calculator gives hour 1 to the Sun (the day ruler),
while the improved calculator's fixed Venus-first sequence gives it to
Venus. -/
theorem implementations_diverge :
    ((calculatePlanetaryHours wProv 37.8714 (-109.3425) 259200000 0).get? 0).map
        PlanetaryHour.planet = some PlanetDay.sun
    ∧ ((calculatePlanetaryHoursB bSunriseFun bSunsetFun 37.8714 (-109.3425)
        259200000 0).get? 0).map PlanetaryHour.planet = some PlanetDay.venus
    ∧ PlanetDay.sun ≠ PlanetDay.venus := by
  refine ⟨?_, ?_, by decide⟩
  · have h4 : (jsGetDay 259200000).val = 0 := by
      have h := jsGetDay_val 259200000 3 (by norm_num [msPerDay])
        (by norm_num [msPerDay])
      simpa using h
    rw [calculatePlanetaryHours_get? wProv 37.8714 (-109.3425) 259200000 0
      ⟨0, 43200000⟩ ⟨0, 43200000⟩ rfl rfl 0 (by norm_num)]
    simp only [Option.map_some', mkHourA, h4]
    decide
  · simp only [calculatePlanetaryHoursB]
    rw [List.get?_map, List.get?_range (by norm_num : (0 : ℕ) < 24)]
    simp only [Option.map_some']
    decide

/-- C9: at most one hour of a computed set is flagged current: any two
members both flagged current are the same record (the 24 records of a set
are pairwise distinct in `hourNumber`, and the half-open intervals are
pairwise disjoint). -/
theorem at_most_one_current (getTimes : ℚ → ℚ → ℚ → Except Unit SolarTimes)
    (lat lng date tz : ℚ) :
    ∀ a ∈ calculatePlanetaryHours getTimes lat lng date tz,
      ∀ b ∈ calculatePlanetaryHours getTimes lat lng date tz,
        a.isCurrentHour = true → b.isCurrentHour = true → a = b := by
  intro a ha b hb hca hcb
  cases h1 : getTimes date lat lng with
  | error e =>
    rw [calculatePlanetaryHours_error getTimes lat lng date tz
      (Or.inl ⟨e, h1⟩)] at ha
    simp at ha
  | ok times =>
    cases h2 : getTimes (date + msPerDay) lat lng with
    | error e =>
      rw [calculatePlanetaryHours_error getTimes lat lng date tz
        (Or.inr ⟨e, h2⟩)] at ha
      simp at ha
    | ok ntimes =>
      rw [calculatePlanetaryHours_ok getTimes lat lng date tz times ntimes
        h1 h2] at ha hb
      obtain ⟨i, hi, rfl⟩ : ∃ i, i < 24 ∧ mkHourA times.sunrise times.sunset
          ntimes.sunrise (((times.sunset - times.sunrise) / msPerMinute) / 12)
          (((ntimes.sunrise - times.sunset) / msPerMinute) / 12)
          (chaldeanOrder.indexOf
            (planetaryDayRulers.getD (jsGetDay date).val .sun)) date i = a := by
        simpa using ha
      obtain ⟨j, hj, rfl⟩ : ∃ j, j < 24 ∧ mkHourA times.sunrise times.sunset
          ntimes.sunrise (((times.sunset - times.sunrise) / msPerMinute) / 12)
          (((ntimes.sunrise - times.sunset) / msPerMinute) / 12)
          (chaldeanOrder.indexOf
            (planetaryDayRulers.getD (jsGetDay date).val .sun)) date j = b := by
        simpa using hb
      have hci : hourStartA times.sunrise times.sunset
          (((times.sunset - times.sunrise) / msPerMinute) / 12)
          (((ntimes.sunrise - times.sunset) / msPerMinute) / 12) i ≤ date
          ∧ date < hourEndA times.sunrise times.sunset ntimes.sunrise
            (((times.sunset - times.sunrise) / msPerMinute) / 12)
            (((ntimes.sunrise - times.sunset) / msPerMinute) / 12) i := by
        simpa [mkHourA, ge_iff_le] using hca
      have hcj : hourStartA times.sunrise times.sunset
          (((times.sunset - times.sunrise) / msPerMinute) / 12)
          (((ntimes.sunrise - times.sunset) / msPerMinute) / 12) j ≤ date
          ∧ date < hourEndA times.sunrise times.sunset ntimes.sunrise
            (((times.sunset - times.sunrise) / msPerMinute) / 12)
            (((ntimes.sunrise - times.sunset) / msPerMinute) / 12) j := by
        simpa [mkHourA, ge_iff_le] using hcb
      have h12 := anchor_identity times.sunrise times.sunset
      have h24 := anchor_identity times.sunset ntimes.sunrise
      have hij : i = j := by
        rcases Nat.lt_trichotomy i j with hlt | heq | hgt
        · exact (no_cross times.sunrise times.sunset ntimes.sunrise
            (((times.sunset - times.sunrise) / msPerMinute) / 12)
            (((ntimes.sunrise - times.sunset) / msPerMinute) / 12) date
            h12 h24 i j hlt hj hci hcj).elim
        · exact heq
        · exact (no_cross times.sunrise times.sunset ntimes.sunrise
            (((times.sunset - times.sunrise) / msPerMinute) / 12)
            (((ntimes.sunrise - times.sunset) / msPerMinute) / 12) date
            h12 h24 j i hgt hi hcj hci).elim
      rw [hij]

/-- C9 witness: in the `wProv` scenario the current hour (hour 1) equals
itself. -/
theorem at_most_one_current_witness :
    wHour1 ∈ calculatePlanetaryHours wProv 0 0 0 0
    ∧ wHour1.isCurrentHour = true ∧ wHour1 = wHour1 := by
  have hmem : wHour1 ∈ calculatePlanetaryHours wProv 0 0 0 0 := by
    rw [wProv_hours]
    exact List.mem_map.mpr ⟨0, by simp, rfl⟩
  have hcur : wHour1.isCurrentHour = true := by
    simp [wHour1, mkHourA, hourStartA, hourEndA, msPerMinute]
  exact ⟨hmem, hcur,
    at_most_one_current wProv 0 0 0 0 wHour1 hmem wHour1 hmem hcur hcur⟩

/-- C6 counterexample: with provider `bProv` the invocation at instant 0
re-invokes for the next day, and that invocation re-invokes again for the
day after — two days beyond the original date, outside the claimed
one-day-forward window, and `NotFound` is never reported. -/
theorem recursion_exceeds_window :
    findCurrentStep bProv 0 0 0 0 = FindStep.recurseNext (0 + msPerDay)
    ∧ findCurrentStep bProv 0 0 (0 + msPerDay) 0
        = FindStep.recurseNext (0 + msPerDay + msPerDay)
    ∧ ¬ (0 + msPerDay + msPerDay ≤ 0 + msPerDay) :=
  ⟨findCurrentStep_bProv 0, findCurrentStep_bProv (0 + msPerDay),
    by norm_num [msPerDay]⟩

/-- C6 as amended: the adjacent-day retry of `findCurrentPlanetaryHour` has
no depth bound: with provider `bProv` every invocation level, at any date,
re-invokes for one more day forward, so the recursion visits dates
arbitrarily far from the original and never returns the NotFound sentinel. -/
theorem recursion_unbounded (t : ℚ) :
    findCurrentStep bProv 0 0 t 0 = FindStep.recurseNext (t + msPerDay) :=
  findCurrentStep_bProv t

/-- C10 counterexample: with provider `cProv10`, `findCurrentPlanetaryHour`
invoked at instant 0 terminates after one adjacent-day re-invocation and
returns an hour whose half-open interval does not contain the originally
supplied instant 0 (it contains the shifted instant 86400000 instead). -/
theorem found_hour_misses_original_instant :
    findCurrentRun cProv10 0 0 0 2 0 = some (some wHour10)
    ∧ ¬ (wHour10.startTime ≤ 0 ∧ (0 : ℚ) < wHour10.endTime) := by
  constructor
  · show findCurrentRun cProv10 0 0 0 (1 + 1) 0 = some (some wHour10)
    rw [findCurrentRun]
    rw [show (0 : ℚ) = (0 : ℚ) from rfl]
    rw [findCurrentStep_cProv10_day0]
    show findCurrentRun cProv10 0 0 0 (0 + 1) 86400000 = some (some wHour10)
    rw [findCurrentRun, findCurrentStep_cProv10_day1]
  · norm_num [wHour10, mkHourA, hourStartA, hourEndA, msPerMinute]

/-- C10 as amended: whenever an invocation level of
`findCurrentPlanetaryHour` itself finds an hour, that hour's half-open
interval contains the date instant of that invocation — which, after
adjacent-day re-invocation, is the original date shifted by the day steps
taken, not necessarily the original instant. -/
theorem found_step_contains_instant
    (getTimes : ℚ → ℚ → ℚ → Except Unit SolarTimes)
    (lat lng date tz : ℚ) (hr : PlanetaryHour)
    (hstep : findCurrentStep getTimes lat lng date tz = FindStep.found hr) :
    hr.startTime ≤ date ∧ date < hr.endTime := by
  simp only [findCurrentStep] at hstep
  cases hfind : (calculatePlanetaryHours getTimes (validLatitudeFind lat)
      (validLongitudeFind lng) date tz).find?
      (fun h => decide (date ≥ h.startTime ∧ date < h.endTime)) with
  | some c =>
    rw [hfind] at hstep
    simp only [FindStep.found.injEq] at hstep
    subst hstep
    have hp := List.find?_some hfind
    simp only [decide_eq_true_eq, ge_iff_le] at hp
    exact hp
  | none =>
    rw [hfind] at hstep
    rcases hl : (calculatePlanetaryHours getTimes (validLatitudeFind lat)
        (validLongitudeFind lng) date tz).getLast? with _ | lastHour <;>
      rcases hh : (calculatePlanetaryHours getTimes (validLatitudeFind lat)
          (validLongitudeFind lng) date tz).head? with _ | firstHour <;>
      rw [hl, hh] at hstep
    · simp at hstep
    · simp at hstep
    · simp at hstep
    · simp only [ge_iff_le] at hstep
      by_cases hc1 : lastHour.endTime ≤ date
      · rw [if_pos hc1] at hstep
        simp at hstep
      · rw [if_neg hc1] at hstep
        by_cases hc2 : date < firstHour.startTime
        · rw [if_pos hc2] at hstep
          simp at hstep
        · rw [if_neg hc2] at hstep
          simp at hstep

/-- C10 witness for the amended statement: the hour found by the `wProv`
step at instant 0 contains 0. -/
theorem found_step_contains_instant_witness :
    wHour1.startTime ≤ 0 ∧ (0 : ℚ) < wHour1.endTime :=
  found_step_contains_instant wProv 0 0 0 0 wHour1 findCurrentStep_wProv

end Kronos
